import Mathlib

/-!
Verification of the core components of the `ask` command-line client:
the shared SSE event reader, the two provider adapters (Anthropic-style
and OpenAI-style), and the SQLite-backed conversation store.

Modelling conventions, shared by every definition below:
* Go strings are modelled as Lean `String`s; Go's byte-level operations
  (`len`, slicing, `strings.HasPrefix`, `strings.TrimPrefix`) are modelled
  on the underlying character list, which coincides with the byte level on
  single-byte (ASCII/Latin-1) content.
* `context.Context` cancellation is modelled by an `Option Nat`: `none`
  means the context is never cancelled, `some c` means every cancellation
  check from the `c`-th check onward observes cancellation.  Each
  `select`/`ctx.Done()` check in the Go code consumes one check index.
* The `encoding/json` decoding of a single streamed chunk (Go standard
  library, not repository code) is abstracted as a parameter
  `extract : String → Option String`: `some t` means the chunk decodes to
  a non-empty text fragment `t` that the adapter sends, `none` means the
  chunk is malformed or carries no text, in which case the adapter skips
  it.  All theorems quantify over this parameter.
* SQLite (external library) is modelled as in-memory tables of rows with
  auto-increment counters; `time.Now()` is a logical clock incremented at
  each insert, which preserves the ordering facts the code relies on.
-/

/-! ## Go string primitives (strings.HasPrefix / TrimPrefix / TrimSpace / Fields) -/

/-- Boolean test that the first list is an initial segment of the second.
Models the byte comparison underlying `strings.HasPrefix`. -/
def listLeads : List Char → List Char → Bool
  | [], _ => true
  | _ :: _, [] => false
  | p :: ps, c :: cs => p == c && listLeads ps cs

/-- Models Go `strings.HasPrefix s p`. -/
def goStartsWith (s p : String) : Bool :=
  listLeads p.data s.data

/-- Models Go `strings.TrimPrefix s p`: removes `p` from the front of `s`
when present, otherwise returns `s` unchanged. -/
def goTrimLead (s p : String) : String :=
  if goStartsWith s p then ⟨s.data.drop p.data.length⟩ else s

/-- Models Go `unicode.IsSpace` on the Latin-1 range: tab, newline,
vertical tab, form feed, carriage return, space, NEL and NBSP. -/
def goIsSpace (c : Char) : Bool :=
  c == '\t' || c == '\n' || c == Char.ofNat 11 || c == Char.ofNat 12 ||
  c == '\r' || c == ' ' || c == Char.ofNat 133 || c == Char.ofNat 160

/-- Models Go `strings.TrimSpace`: drops leading and trailing whitespace. -/
def goTrimSpace (s : String) : String :=
  ⟨((s.data.dropWhile goIsSpace).reverse.dropWhile goIsSpace).reverse⟩

/-- Accumulator-style scan splitting a character list into maximal
whitespace-free runs; the accumulator holds the current run reversed. -/
def goFieldsAux : List Char → List Char → List (List Char)
  | [], acc => if acc.isEmpty then [] else [acc.reverse]
  | c :: cs, acc =>
    if goIsSpace c then
      if acc.isEmpty then goFieldsAux cs [] else acc.reverse :: goFieldsAux cs []
    else goFieldsAux cs (c :: acc)

/-- Models Go `strings.Fields`: the whitespace-separated fields of `s`. -/
def goFields (s : String) : List String :=
  (goFieldsAux s.data []).map fun l => ⟨l⟩

/-- Models Go `strings.Join(fields, " ")`. -/
def joinSpace : List String → String
  | [] => ""
  | [x] => x
  | x :: y :: xs => x ++ " " ++ joinSpace (y :: xs)

/-- Models the Go slice expression `s[:n]`. -/
def goSlice (s : String) (n : Nat) : String :=
  ⟨s.data.take n⟩

/-- The prefix relation on lists: `firstPartOf l₁ l₂` holds when `l₁`
followed by some tail equals `l₂`. -/
def firstPartOf (l₁ l₂ : List α) : Prop :=
  ∃ t, l₁ ++ t = l₂

/-! ## Conversation store (internal/history/store.go) -/

/-- Models `history.Message`.  Go's zero identifier (`int64` 0) marks a
message that has not been persisted yet. -/
structure HMessage where
  id : Nat
  conversationId : Nat
  role : String
  content : String
  createdAt : Nat
deriving DecidableEq

/-- Models `history.Conversation`. -/
structure HConversation where
  id : Nat
  title : String
  model : String
  provider : String
  createdAt : Nat
  messages : List HMessage
deriving DecidableEq

/-- A persisted row of the `conversations` table. -/
structure ConvRow where
  id : Nat
  title : String
  model : String
  provider : String
  createdAt : Nat
deriving DecidableEq

/-- A persisted row of the `messages` table. -/
structure MsgRow where
  id : Nat
  conversationId : Nat
  role : String
  content : String
  createdAt : Nat
deriving DecidableEq

/-- The SQLite database state: both tables, the auto-increment counters
(SQLite row ids start at 1), and a logical clock standing for `time.Now()`. -/
structure DB where
  convRows : List ConvRow
  msgRows : List MsgRow
  nextConvId : Nat
  nextMsgId : Nat
  clock : Nat
deriving DecidableEq

/-- Models `truncateTitle` from store.go: normalize whitespace via
`strings.Fields`/`strings.Join`, then cut to `maxLen` with a trailing
`"..."` when too long. -/
def truncateTitle (s : String) (maxLen : Nat) : String :=
  let t := joinSpace (goFields s)
  if t.length ≤ maxLen then t else goSlice t (maxLen - 3) ++ "..."

/-- The scan inside `SaveConversation` locating the first message whose
role is `"user"`. -/
def firstUserContent : List HMessage → Option String
  | [] => none
  | m :: ms => if m.role = "user" then some m.content else firstUserContent ms

/-- The title computation of `SaveConversation` step 1: a caller-supplied
title wins; otherwise the first user message is truncated to 50
characters; with no user message the (empty) title is kept. -/
def computeTitle (conv : HConversation) : String :=
  if conv.title = "" ∧ conv.messages ≠ [] then
    match firstUserContent conv.messages with
    | some c => truncateTitle c 50
    | none => conv.title
  else conv.title

/-- One `INSERT INTO messages` statement: assigns the next message id and
the current clock, and appends the row. -/
def insertMsgRow (db : DB) (cid : Nat) (m : HMessage) : DB :=
  { db with
      msgRows := db.msgRows ++ [⟨db.nextMsgId, cid, m.role, m.content, db.clock⟩],
      nextMsgId := db.nextMsgId + 1,
      clock := db.clock + 1 }

/-- The message loop of `SaveConversation`: every message still carrying
identifier 0 is inserted, every message with an identifier is skipped.
The caller's message list itself is never modified. -/
def insertMessages (db : DB) (cid : Nat) : List HMessage → DB
  | [] => db
  | m :: ms =>
    if m.id == 0 then insertMessages (insertMsgRow db cid m) cid ms
    else insertMessages db cid ms

/-- Models `(*Store).SaveConversation`.  Returns the updated database, the
caller's conversation as it stands after the call (the Go code mutates
only `conv.ID`, and only when it was 0), and the returned identifier. -/
def saveConversation (db : DB) (conv : HConversation) : DB × HConversation × Nat :=
  if conv.id = 0 then
    let row : ConvRow := ⟨db.nextConvId, computeTitle conv, conv.model, conv.provider, db.clock⟩
    let db₁ : DB :=
      { db with
          convRows := db.convRows ++ [row],
          nextConvId := db.nextConvId + 1,
          clock := db.clock + 1 }
    let conv₁ : HConversation := { conv with id := row.id }
    (insertMessages db₁ conv₁.id conv₁.messages, conv₁, conv₁.id)
  else
    (insertMessages db conv.id conv.messages, conv, conv.id)

/-! ## Streaming loop skeleton shared by both adapters

Both `parseSSEStream` implementations are a `bufio.Scanner` loop with a
cancellation check at the top of each iteration and a second check around
every channel send; they differ only in how one line is dispatched.  The
dispatch of one line is a `StepAct`, and `runLoop` is the loop itself. -/

/-- What processing one line does: carry on with a new parser state,
deliver one token then carry on, or end the stream successfully
(`return nil` inside the loop). -/
inductive StepAct (σ : Type) where
  | skip (s : σ)
  | emit (t : String) (s : σ)
  | stop
deriving DecidableEq

/-- How the scanner loop was left: the input was exhausted, the adapter
returned successfully from inside the loop, or a cancellation check fired. -/
inductive LoopExit where
  | eof
  | stopped
  | cancelled
deriving DecidableEq

/-- Result of a whole `parseSSEStream` call. -/
inductive PResult where
  | ok
  | cancelled
  | readErr
deriving DecidableEq

/-- The cancellation signal: check number `k` observes cancellation
exactly when the signal `some c` has become active, i.e. `c ≤ k`. -/
def ctxDone : Option Nat → Nat → Bool
  | none, _ => false
  | some c, k => c ≤ k

/-- The scanner loop: for each line, check cancellation, dispatch the
line, and on a delivery check cancellation again around the send.
Returns the delivered tokens, how the loop exited, and the number of
cancellation checks performed. -/
def runLoop (step : σ → String → StepAct σ) (c : Option Nat) :
    List String → σ → Nat → List String × LoopExit × Nat
  | [], _, k => ([], .eof, k)
  | line :: rest, s, k =>
    if ctxDone c k then ([], .cancelled, k + 1)
    else
      match step s line with
      | .skip s' => runLoop step c rest s' (k + 1)
      | .stop => ([], .stopped, k + 1)
      | .emit t s' =>
        if ctxDone c (k + 1) then ([], .cancelled, k + 2)
        else
          let r := runLoop step c rest s' (k + 2)
          (t :: r.1, r.2.1, r.2.2)

/-- The code after the scanner loop: an early `return` skips the
`scanner.Err()` check; at end of input a read failure is reported, as
cancellation when the context was already cancelled. -/
def parseFinish (r : List String × LoopExit × Nat) (c : Option Nat) (endErr : Bool) :
    List String × PResult :=
  match r with
  | (toks, .stopped, _) => (toks, .ok)
  | (toks, .cancelled, _) => (toks, .cancelled)
  | (toks, .eof, k) =>
    if endErr then (toks, if ctxDone c k then .cancelled else .readErr)
    else (toks, .ok)

/-- Line dispatch of `(*OpenAI).parseSSEStream`: blank lines and comments
are skipped, only `"data: "` lines count, the literal `[DONE]` payload
ends the stream, and a decoded chunk with non-empty content is sent. -/
def openAIStep (extract : String → Option String) : Unit → String → StepAct Unit :=
  fun _ line =>
    if line = "" then .skip ()
    else if goStartsWith line ":" then .skip ()
    else if goStartsWith line "data: " then
      let data := goTrimLead line "data: "
      if data = "[DONE]" then .stop
      else
        match extract data with
        | some t => .emit t ()
        | none => .skip ()
    else .skip ()

/-- Line dispatch of `(*Anthropic).parseSSEStream`: `"event: "` lines set
the current event name, a `"data: "` line under `message_stop` ends the
stream, a `"data: "` line under `content_block_delta` is decoded and its
non-empty text sent, a blank line resets the event name, and anything
else is ignored.  The parser state is the current event name. -/
def anthropicStep (extract : String → Option String) : String → String → StepAct String :=
  fun evType line =>
    if goStartsWith line "event: " then .skip (goTrimLead line "event: ")
    else if goStartsWith line "data: " then
      let data := goTrimLead line "data: "
      if evType = "message_stop" then .stop
      else if evType = "content_block_delta" then
        match extract data with
        | some t => .emit t evType
        | none => .skip evType
      else .skip evType
    else if line = "" then .skip ""
    else .skip evType

/-- Models `(*OpenAI).parseSSEStream` on a response body given as its
lines plus a flag for a read failure after them. -/
def openAIParseSSEStream (extract : String → Option String) (c : Option Nat)
    (lines : List String) (endErr : Bool) : List String × PResult :=
  parseFinish (runLoop (openAIStep extract) c lines () 0) c endErr

/-- Models `(*Anthropic).parseSSEStream`; the current event name starts empty. -/
def anthropicParseSSEStream (extract : String → Option String) (c : Option Nat)
    (lines : List String) (endErr : Bool) : List String × PResult :=
  parseFinish (runLoop (anthropicStep extract) c lines "" 0) c endErr

/-! ## Error taxonomy and the Chat entry points -/

/-- The error taxonomy of the adapters.  The Go code returns distinct
`fmt.Errorf` values; each constructor stands for one of them. -/
inductive ProviderError where
  | invalidAPIKey
  | rateLimited
  | serviceUnavailable
  | apiError (status : Nat) (body : String)
  | cancelled
  | transport
  | readStream
  | buildFailed
deriving DecidableEq

/-- Models `(*Anthropic).handleHTTPError`: 401 and 429 map to dedicated
errors, any 5xx to the service error, anything else to a generic API
error carrying status and body. -/
def anthropicHandleHTTPError (status : Nat) (body : String) : ProviderError :=
  if status = 401 then .invalidAPIKey
  else if status = 429 then .rateLimited
  else if 500 ≤ status then .serviceUnavailable
  else .apiError status body

/-- Models `(*OpenAI).handleHTTPError` (same switch; the body is read up
front in the Go code, which only matters for the default branch). -/
def openAIHandleHTTPError (status : Nat) (body : String) : ProviderError :=
  if status = 401 then .invalidAPIKey
  else if status = 429 then .rateLimited
  else if 500 ≤ status then .serviceUnavailable
  else .apiError status body

/-- The status gate in both `Chat` implementations:
`if resp.StatusCode != http.StatusOK { return handleHTTPError(resp) }`. -/
def anthropicHTTPCheck (status : Nat) (body : String) : Option ProviderError :=
  if status = 200 then none else some (anthropicHandleHTTPError status body)

/-- The same gate in `(*OpenAI).Chat`. -/
def openAIHTTPCheck (status : Nat) (body : String) : Option ProviderError :=
  if status = 200 then none else some (openAIHandleHTTPError status body)

/-- An operation performed on the output channel. -/
inductive ChanOp where
  | send (t : String)
  | close
deriving DecidableEq

/-- Number of `close` operations in a channel trace. -/
def countClose : List ChanOp → Nat
  | [] => 0
  | .close :: r => countClose r + 1
  | .send _ :: r => countClose r

/-- The possible outcomes of the phase of `Chat` before stream decoding:
building/marshalling the request failed, `client.Do` failed (with the
context possibly already cancelled), or an HTTP response arrived with a
status, an error body, the body's lines and an end-of-body read flag. -/
inductive ChatOutcome where
  | buildErr
  | transportErr (ctxCancelledNow : Bool)
  | httpResp (status : Nat) (errBody : String) (lines : List String) (endErr : Bool)

/-- Converts a stream-parse result into `Chat`'s returned error. -/
def chatResultError : PResult → Option ProviderError
  | .ok => none
  | .cancelled => some .cancelled
  | .readErr => some .readStream

/-- Models `(*Anthropic).Chat` as the trace of operations on the output
channel together with the returned error.  The `defer close(stream)` at
the top of the Go function closes the channel on every exit path, after
all sends. -/
def anthropicChat (extract : String → Option String) (c : Option Nat)
    (o : ChatOutcome) : List ChanOp × Option ProviderError :=
  match o with
  | .buildErr => ([.close], some .buildFailed)
  | .transportErr cancelledNow =>
    ([.close], some (if cancelledNow then .cancelled else .transport))
  | .httpResp status body lines endErr =>
    if status = 200 then
      ((anthropicParseSSEStream extract c lines endErr).1.map ChanOp.send ++ [.close],
       chatResultError (anthropicParseSSEStream extract c lines endErr).2)
    else ([.close], some (anthropicHandleHTTPError status body))

/-- Models `(*OpenAI).Chat` the same way. -/
def openAIChat (extract : String → Option String) (c : Option Nat)
    (o : ChatOutcome) : List ChanOp × Option ProviderError :=
  match o with
  | .buildErr => ([.close], some .buildFailed)
  | .transportErr cancelledNow =>
    ([.close], some (if cancelledNow then .cancelled else .transport))
  | .httpResp status body lines endErr =>
    if status = 200 then
      ((openAIParseSSEStream extract c lines endErr).1.map ChanOp.send ++ [.close],
       chatResultError (openAIParseSSEStream extract c lines endErr).2)
    else ([.close], some (openAIHandleHTTPError status body))

/-! ## The shared SSE event reader (internal/sse, `(*Reader).Read`)

The reader's context checks are modelled with the cancellation signal
inactive (every check takes the `default` branch); the claims about the
reader concern its framing. -/

/-- Models `sse.Event`. -/
structure SSEEvent where
  type : String
  data : String
deriving DecidableEq

/-- Models the loop of `(*Reader).Read`: blank lines emit the current
event exactly when its accumulated data is non-empty and reset the
state; comments are skipped; `event:` lines set the trimmed type;
`data:` lines strip at most one leading space and append, inserting a
newline separator when data was already accumulated.  End of input
flushes a pending non-empty event. -/
def readerLoop : List String → SSEEvent → List SSEEvent
  | [], cur => if cur.data = "" then [] else [cur]
  | line :: rest, cur =>
    if line = "" then
      (if cur.data = "" then [] else [cur]) ++ readerLoop rest ⟨"", ""⟩
    else if goStartsWith line ":" then readerLoop rest cur
    else if goStartsWith line "event:" then
      readerLoop rest { cur with type := goTrimSpace (goTrimLead line "event:") }
    else if goStartsWith line "data:" then
      let d := goTrimLead (goTrimLead line "data:") " "
      readerLoop rest
        { cur with data := if cur.data = "" then cur.data ++ d else cur.data ++ "\n" ++ d }
    else readerLoop rest cur

/-- The events `(*Reader).Read` delivers for a whole input, starting from
the zero `Event`. -/
def readerRecords (lines : List String) : List SSEEvent :=
  readerLoop lines ⟨"", ""⟩

/-- The (type, data) records the inline framing pass of
`(*Anthropic).parseSSEStream` recognizes: one record per accepted
`"data: "` line, carrying the current event name; recognition ends at a
data line of a `message_stop` event.  This is the line dispatch of
`anthropicStep` with the vendor JSON handling stripped away. -/
def anthropicFraming : List String → String → List SSEEvent
  | [], _ => []
  | line :: rest, ev =>
    if goStartsWith line "event: " then anthropicFraming rest (goTrimLead line "event: ")
    else if goStartsWith line "data: " then
      if ev = "message_stop" then []
      else ⟨ev, goTrimLead line "data: "⟩ :: anthropicFraming rest ev
    else if line = "" then anthropicFraming rest ""
    else anthropicFraming rest ev

/-- Renders one wire event: an optional `event:` line, one `data:` line,
and the terminating blank line (the well-formed shape the spec describes
for the Anthropic wire format). -/
def renderEvent : Option String × String → List String
  | (some t, v) => ["event: " ++ t, "data: " ++ v, ""]
  | (none, v) => ["data: " ++ v, ""]

/-- Renders a sequence of wire events into input lines. -/
def renderStream : List (Option String × String) → List String
  | [] => []
  | e :: es => renderEvent e ++ renderStream es

/-! ## Helper lemmas: strings -/

theorem strData_append (a b : String) : (a ++ b).data = a.data ++ b.data := rfl

theorem strLength_append (a b : String) : (a ++ b).length = a.length + b.length := by
  show (a.data ++ b.data).length = a.data.length + b.data.length
  exact List.length_append a.data b.data

theorem goSlice_length (s : String) (n : Nat) : (goSlice s n).length = min n s.length := by
  show (s.data.take n).length = min n s.data.length
  exact List.length_take n s.data

/-! ## Helper lemmas: the store -/

theorem insertMessages_msgRows_length (cid : Nat) :
    ∀ (ms : List HMessage) (db : DB),
      (insertMessages db cid ms).msgRows.length
        = db.msgRows.length + (ms.filter fun m => m.id == 0).length := by
  intro ms
  induction ms with
  | nil => intro db; simp [insertMessages]
  | cons m ms ih =>
    intro db
    by_cases h : m.id = 0
    · simp [insertMessages, h, ih, insertMsgRow, List.filter_cons]
      omega
    · have hb : (m.id == 0) = false := by simpa using h
      simp [insertMessages, hb, ih, List.filter_cons]

theorem saveConversation_msgRows_length (db : DB) (conv : HConversation) :
    (saveConversation db conv).1.msgRows.length
      = db.msgRows.length + (conv.messages.filter fun m => m.id == 0).length := by
  unfold saveConversation
  by_cases h : conv.id = 0 <;>
    simp [h, insertMessages_msgRows_length]

theorem saveConversation_keeps_messages (db : DB) (conv : HConversation) :
    (saveConversation db conv).2.1.messages = conv.messages := by
  unfold saveConversation
  by_cases h : conv.id = 0 <;> simp [h]

/-! ## Claim C1 (idempotent append) -/

/-- The empty database produced by the migrations. -/
def dbEmpty : DB := ⟨[], [], 1, 1, 0⟩

/-- A conversation holding one new (identifier-less) message. -/
def convC1 : HConversation := ⟨0, "T", "m", "p", 0, [⟨0, 0, "user", "hi", 0⟩]⟩

/-- C1 counterexample: a conversation with `n = 1` new (identifier-less)
message, saved and then saved again unchanged, leaves 2 persisted
messages, not 1.  `SaveConversation` never writes the assigned message
identifiers back into the caller's message list, so the second save
re-inserts the still identifier-less message. -/
theorem saveConversation_repeat_counterexample :
    (saveConversation (saveConversation dbEmpty convC1).1
        (saveConversation dbEmpty convC1).2.1).1.msgRows.length = 2
    ∧ ¬ (saveConversation (saveConversation dbEmpty convC1).1
        (saveConversation dbEmpty convC1).2.1).1.msgRows.length = 1 := by
  constructor
  · rfl
  · decide

/-- C1 amended: each `SaveConversation` call inserts exactly the
identifier-less messages of the passed list — a message carrying an
identifier is never re-inserted, identifier presence being the only
deduplication key.  Consequently saving a conversation whose `n` messages
are all identifier-less and then saving it again unchanged leaves `2 * n`
persisted messages, not `n`: the repeat save is idempotent only when the
caller refreshes the message identifiers in between. -/
theorem saveConversation_insert_count (db : DB) (conv : HConversation) :
    ((saveConversation db conv).1.msgRows.length
      = db.msgRows.length + (conv.messages.filter fun m => m.id == 0).length)
    ∧ ((∀ m ∈ conv.messages, m.id = 0) →
        (saveConversation (saveConversation db conv).1
            (saveConversation db conv).2.1).1.msgRows.length
          = db.msgRows.length + 2 * conv.messages.length) := by
  constructor
  · exact saveConversation_msgRows_length db conv
  · intro h
    have hfilter : (conv.messages.filter fun m => m.id == 0) = conv.messages :=
      List.filter_eq_self.mpr fun m hm => by simpa using h m hm
    have h1 := saveConversation_msgRows_length db conv
    have h2 := saveConversation_msgRows_length (saveConversation db conv).1
      (saveConversation db conv).2.1
    rw [saveConversation_keeps_messages, hfilter] at h2
    rw [hfilter] at h1
    omega

/-- C1 witness: the amended count at a concrete conversation with one new
message — two saves persist two message rows. -/
theorem saveConversation_insert_count_witness :
    (saveConversation (saveConversation dbEmpty convC1).1
        (saveConversation dbEmpty convC1).2.1).1.msgRows.length
      = dbEmpty.msgRows.length + 2 * convC1.messages.length :=
  (saveConversation_insert_count dbEmpty convC1).2 (by decide)

/-! ## Claim C10 (frame of SaveConversation) -/

/-- C10: after a save, the only field of the caller's conversation the
store modified is the identifier (assigned exactly when it was 0, to the
next auto-increment value); the message list — and every message in it —
is returned unchanged, so freshly inserted messages still carry
identifier 0 in memory and database-assigned message identifiers are
never written back. -/
theorem saveConversation_frame (db : DB) (conv : HConversation) :
    ((saveConversation db conv).2.1.messages = conv.messages
      ∧ (saveConversation db conv).2.1.title = conv.title
      ∧ (saveConversation db conv).2.1.model = conv.model
      ∧ (saveConversation db conv).2.1.provider = conv.provider
      ∧ (saveConversation db conv).2.1.createdAt = conv.createdAt
      ∧ (saveConversation db conv).2.2 = (saveConversation db conv).2.1.id)
    ∧ (conv.id = 0 → (saveConversation db conv).2.1 = { conv with id := db.nextConvId })
    ∧ (conv.id ≠ 0 → (saveConversation db conv).2.1 = conv) := by
  unfold saveConversation
  by_cases h : conv.id = 0 <;> simp [h]

/-- A conversation that already has an identifier, with one new message. -/
def convW10 : HConversation := ⟨7, "t", "m", "p", 3, [⟨0, 7, "user", "x", 0⟩]⟩

/-- C10 witness: saving an already-created conversation returns the
caller's conversation value completely unchanged. -/
theorem saveConversation_frame_witness :
    (saveConversation dbEmpty convW10).2.1 = convW10 :=
  (saveConversation_frame dbEmpty convW10).2.2 (by decide)

/-! ## Claim C8 (title derivation and truncation) -/

/-- C8: when the whitespace-normalized first-user-message content exceeds
50 characters the derived title is exactly 50 characters and ends in
`...` (the ellipsis being its last 3 of the 50); otherwise the
normalized content is used unchanged; and conversation creation derives
its title by applying `truncateTitle` with limit 50 to the first
role-"user" content when no caller title is supplied. -/
theorem truncateTitle_normalizes_and_caps (content : String) :
    (50 < (joinSpace (goFields content)).length →
      (truncateTitle content 50).length = 50
      ∧ ∃ p : String, truncateTitle content 50 = p ++ "..." ∧ p.length = 47)
    ∧ ((joinSpace (goFields content)).length ≤ 50 →
      truncateTitle content 50 = joinSpace (goFields content))
    ∧ (∀ (conv : HConversation) (c : String), conv.title = "" →
        firstUserContent conv.messages = some c →
        computeTitle conv = truncateTitle c 50) := by
  refine ⟨?_, ?_, ?_⟩
  · intro h
    have hle : ¬ (joinSpace (goFields content)).length ≤ 50 := by omega
    rw [truncateTitle, if_neg hle]
    constructor
    · rw [strLength_append, goSlice_length]
      have h3 : ("..." : String).length = 3 := by decide
      omega
    · exact ⟨goSlice (joinSpace (goFields content)) 47, rfl, by rw [goSlice_length]; omega⟩
  · intro h
    rw [truncateTitle, if_pos h]
  · intro conv c h1 h2
    have hne : conv.messages ≠ [] := by
      intro hnil
      rw [hnil] at h2
      simp [firstUserContent] at h2
    rw [computeTitle, if_pos ⟨h1, hne⟩, h2]

/-- A user message with embedded newlines and repeated spaces whose
normalized form exceeds 50 characters. -/
def longUserContent : String :=
  "What is the relationship\nbetween    goroutines,  channels\nand   OS threads in   Go?"

/-- C8 witness: the concrete long content yields a 50-character title
ending in the ellipsis. -/
theorem truncateTitle_normalizes_and_caps_witness :
    (truncateTitle longUserContent 50).length = 50
    ∧ ∃ p : String, truncateTitle longUserContent 50 = p ++ "..." ∧ p.length = 47 :=
  (truncateTitle_normalizes_and_caps longUserContent).1 (by decide)

/-! ## Claim C6 (HTTP status → error mapping) -/

/-- C6 counterexample: a 201 response — inside the 2xx range — does not
pass the adapters' status gate, which accepts exactly 200: both adapters
turn it into the generic API error instead of no error. -/
theorem httpCheck_2xx_counterexample :
    anthropicHTTPCheck 201 "b" = some (.apiError 201 "b")
    ∧ openAIHTTPCheck 201 "b" = some (.apiError 201 "b")
    ∧ ¬ anthropicHTTPCheck 201 "b" = none
    ∧ ¬ openAIHTTPCheck 201 "b" = none := by
  refine ⟨rfl, rfl, by decide, by decide⟩

/-- C6 amended: both adapters map HTTP statuses identically — 401 to the
authentication failure, 429 to rate-limited, every status ≥ 500 to the
upstream service error, and every other status different from 200 to the
generic API error carrying status and body; only status exactly 200
yields no error (non-200 statuses in the 2xx range are treated as
generic API errors, not as success). -/
theorem httpCheck_status_mapping (status : Nat) (body : String) :
    anthropicHTTPCheck status body = openAIHTTPCheck status body
    ∧ (status = 200 → anthropicHTTPCheck status body = none)
    ∧ (status ≠ 200 →
        anthropicHTTPCheck status body
          = some (if status = 401 then .invalidAPIKey
              else if status = 429 then .rateLimited
              else if 500 ≤ status then .serviceUnavailable
              else .apiError status body)) := by
  refine ⟨rfl, ?_, ?_⟩
  · intro h
    rw [anthropicHTTPCheck, if_pos h]
  · intro h
    rw [anthropicHTTPCheck, if_neg h]
    rfl

/-- C6 witness: the mapping applied at 200 (no error) and at 404 (generic
API error with status and body). -/
theorem httpCheck_status_mapping_witness :
    anthropicHTTPCheck 200 "b" = none
    ∧ anthropicHTTPCheck 404 "nf" = some (.apiError 404 "nf") := by
  refine ⟨(httpCheck_status_mapping 200 "b").2.1 rfl, ?_⟩
  have h := (httpCheck_status_mapping 404 "nf").2.2 (by decide)
  simpa using h

/-! ## Claim C2 (channel closed exactly once) -/

theorem countClose_map_send (l : List String) : countClose (l.map ChanOp.send) = 0 := by
  induction l with
  | nil => rfl
  | cons t l ih => simpa [countClose] using ih

/-- C2: on either adapter, for every outcome of the exchange (request
build failure, transport failure with or without cancellation, HTTP error
status, and every decode of a 200 response — success, cancellation or
read error), the channel trace of `Chat` consists of the sends followed
by exactly one `close`, performed last, before `Chat` returns. -/
theorem chat_closes_channel_exactly_once (extract : String → Option String)
    (c : Option Nat) (o : ChatOutcome) :
    (∃ pre, (anthropicChat extract c o).1 = pre ++ [ChanOp.close] ∧ countClose pre = 0)
    ∧ (∃ pre, (openAIChat extract c o).1 = pre ++ [ChanOp.close] ∧ countClose pre = 0) := by
  cases o with
  | buildErr => exact ⟨⟨[], rfl, rfl⟩, ⟨[], rfl, rfl⟩⟩
  | transportErr b => exact ⟨⟨[], rfl, rfl⟩, ⟨[], rfl, rfl⟩⟩
  | httpResp status body lines endErr =>
    by_cases h : status = 200
    · exact ⟨⟨(anthropicParseSSEStream extract c lines endErr).1.map ChanOp.send,
          by simp [anthropicChat, h], countClose_map_send _⟩,
        ⟨(openAIParseSSEStream extract c lines endErr).1.map ChanOp.send,
          by simp [openAIChat, h], countClose_map_send _⟩⟩
    · exact ⟨⟨[], by simp [anthropicChat, h], rfl⟩,
        ⟨[], by simp [openAIChat, h], rfl⟩⟩

/-! ## Helper lemmas: the scanner loop -/

theorem runLoop_none_exit {σ : Type} (step : σ → String → StepAct σ) :
    ∀ (lines : List String) (s : σ) (k : Nat),
      (runLoop step none lines s k).2.1 = .eof
      ∨ (runLoop step none lines s k).2.1 = .stopped := by
  intro lines
  induction lines with
  | nil => intro s k; left; rfl
  | cons line rest ih =>
    intro s k
    have h0 : ctxDone none k = false := rfl
    cases hstep : step s line with
    | skip s' => simpa [runLoop, h0, hstep] using ih s' (k + 1)
    | stop => right; simp [runLoop, h0, hstep]
    | emit t s' => simpa [runLoop, h0, hstep, ctxDone] using ih s' (k + 2)

theorem runLoop_cancel {σ : Type} (step : σ → String → StepAct σ) (c : Nat) :
    ∀ (lines : List String) (s : σ) (k : Nat), k ≤ c →
      c < (runLoop step none lines s k).2.2 →
      (runLoop step (some c) lines s k).2.1 = .cancelled
      ∧ firstPartOf (runLoop step (some c) lines s k).1 (runLoop step none lines s k).1 := by
  intro lines
  induction lines with
  | nil =>
    intro s k hk hc
    simp [runLoop] at hc
    omega
  | cons line rest ih =>
    intro s k hk hc
    have h0 : ctxDone none k = false := rfl
    by_cases hck : c ≤ k
    · have h1 : ctxDone (some c) k = true := by simp [ctxDone, hck]
      refine ⟨by simp [runLoop, h1], ?_⟩
      simp only [runLoop, h1, if_true]
      exact ⟨_, rfl⟩
    · have h1 : ctxDone (some c) k = false := by simp [ctxDone]; omega
      cases hstep : step s line with
      | skip s' =>
        simp only [runLoop, h0, hstep, Bool.false_eq_true, if_false] at hc
        simpa [runLoop, h0, h1, hstep] using ih s' (k + 1) (by omega) hc
      | stop =>
        simp [runLoop, h0, hstep] at hc
        omega
      | emit t s' =>
        have h2 : ctxDone none (k + 1) = false := rfl
        simp only [runLoop, h0, h2, hstep, Bool.false_eq_true, if_false] at hc
        by_cases hck2 : c ≤ k + 1
        · have h3 : ctxDone (some c) (k + 1) = true := by simp [ctxDone, hck2]
          refine ⟨by simp [runLoop, h1, h3, hstep], ?_⟩
          simp only [runLoop, h1, h3, hstep, Bool.false_eq_true, if_false, if_true]
          exact ⟨_, rfl⟩
        · have h3 : ctxDone (some c) (k + 1) = false := by simp [ctxDone]; omega
          obtain ⟨hres, w, hw⟩ := ih s' (k + 2) (by omega) hc
          constructor
          · simpa [runLoop, h1, h3, hstep] using hres
          · refine ⟨w, ?_⟩
            simp only [runLoop, h0, h1, h2, h3, hstep, Bool.false_eq_true, if_false]
            simpa [List.cons_append] using congrArg (List.cons t) hw

theorem parseFinish_fst (r : List String × LoopExit × Nat) (c : Option Nat) (e : Bool) :
    (parseFinish r c e).1 = r.1 := by
  rcases r with ⟨toks, ex, k⟩
  cases ex <;> cases e <;> simp [parseFinish]

theorem parseFinish_cancelled (r : List String × LoopExit × Nat) (c : Option Nat) (e : Bool)
    (h : r.2.1 = .cancelled) : (parseFinish r c e).2 = .cancelled := by
  rcases r with ⟨toks, ex, k⟩
  simp at h
  subst h
  rfl

theorem parseFinish_none_ok {σ : Type} (step : σ → String → StepAct σ)
    (lines : List String) (s : σ) :
    (parseFinish (runLoop step none lines s 0) none false).2 = .ok := by
  have h := runLoop_none_exit step lines s 0
  rcases hr : runLoop step none lines s 0 with ⟨toks, ex, k⟩
  rw [hr] at h
  simp at h
  rcases h with h | h <;> subst h <;> rfl

/-! ## Claim C4 (the OpenAI-style DONE sentinel) -/

theorem openAIStep_done (extract : String → Option String) :
    openAIStep extract () "data: [DONE]" = .stop := rfl

theorem runLoop_openai_done_cut (extract : String → Option String) (post : List String) :
    ∀ (pre : List String) (k : Nat),
      runLoop (openAIStep extract) none (pre ++ "data: [DONE]" :: post) () k
        = runLoop (openAIStep extract) none (pre ++ ["data: [DONE]"]) () k := by
  intro pre
  induction pre with
  | nil =>
    intro k
    simp [runLoop, ctxDone, openAIStep_done]
  | cons l pre ih =>
    intro k
    have h0 : ∀ j, ctxDone none j = false := fun _ => rfl
    cases hstep : openAIStep extract () l with
    | skip s' =>
      cases s'
      simp only [List.cons_append, runLoop, h0, Bool.false_eq_true, if_false, hstep]
      exact ih (k + 1)
    | stop =>
      simp [runLoop, h0, hstep]
    | emit t s' =>
      cases s'
      simp only [List.cons_append, runLoop, h0, Bool.false_eq_true, if_false, hstep,
        List.append_eq]
      rw [ih (k + 2)]

/-- C4: for the OpenAI-style adapter a `data:` line whose payload is the
literal `[DONE]` sentinel ends decoding successfully and immediately —
whatever lines follow it are never processed — and on the input
consisting of exactly `data: [DONE]` and a blank line, zero tokens are
emitted and the result is success. -/
theorem openAI_done_sentinel (extract : String → Option String) :
    openAIParseSSEStream extract none ["data: [DONE]", ""] false = ([], .ok)
    ∧ ∀ (pre post : List String),
        openAIParseSSEStream extract none (pre ++ "data: [DONE]" :: post) false
          = openAIParseSSEStream extract none (pre ++ ["data: [DONE]"]) false := by
  constructor
  · rfl
  · intro pre post
    unfold openAIParseSSEStream
    rw [runLoop_openai_done_cut]

/-! ## Claim C5 (the Anthropic-style message_stop event) -/

theorem anthropicStep_event_stop (extract : String → Option String) (s : String) :
    anthropicStep extract s "event: message_stop" = .skip "message_stop" := rfl

theorem anthropicStep_data_stop (extract : String → Option String) (d : String) :
    anthropicStep extract "message_stop" ("data: " ++ d) = .stop := rfl

theorem runLoop_anthropic_stop_cut (extract : String → Option String)
    (d : String) (post : List String) :
    ∀ (pre : List String) (s : String) (k : Nat),
      runLoop (anthropicStep extract) none
          (pre ++ "event: message_stop" :: ("data: " ++ d) :: post) s k
        = runLoop (anthropicStep extract) none
          (pre ++ ["event: message_stop", "data: " ++ d]) s k := by
  intro pre
  induction pre with
  | nil =>
    intro s k
    simp [runLoop, ctxDone, anthropicStep_event_stop, anthropicStep_data_stop]
  | cons l pre ih =>
    intro s k
    have h0 : ∀ j, ctxDone none j = false := fun _ => rfl
    cases hstep : anthropicStep extract s l with
    | skip s' =>
      simp only [List.cons_append, runLoop, h0, Bool.false_eq_true, if_false, hstep]
      exact ih s' (k + 1)
    | stop =>
      simp [runLoop, h0, hstep]
    | emit t s' =>
      simp only [List.cons_append, runLoop, h0, Bool.false_eq_true, if_false, hstep,
        List.append_eq]
      rw [ih s' (k + 2)]

/-- C5: for the Anthropic-style adapter, a `message_stop` event (its
`event:` line followed by its `data:` line) ends decoding successfully
and immediately: whatever events follow — content-delta events included —
contribute nothing, the output equals that of the stream truncated at
the stop event, and the overall result is success. -/
theorem anthropic_message_stop_terminates (extract : String → Option String)
    (pre post : List String) (d : String) :
    anthropicParseSSEStream extract none
        (pre ++ "event: message_stop" :: ("data: " ++ d) :: post) false
      = anthropicParseSSEStream extract none
        (pre ++ ["event: message_stop", "data: " ++ d]) false
    ∧ (anthropicParseSSEStream extract none
        (pre ++ "event: message_stop" :: ("data: " ++ d) :: post) false).2 = .ok := by
  have hcut := runLoop_anthropic_stop_cut extract d post pre "" 0
  constructor
  · unfold anthropicParseSSEStream
    rw [hcut]
  · unfold anthropicParseSSEStream
    rw [hcut]
    exact parseFinish_none_ok (anthropicStep extract) _ ""

/-! ## Claim C3 (cancellation semantics) -/

/-- C3: on either adapter, when the cancellation signal becomes active
while the stream is still being decoded (`c` below is less than the
number of checks a full decode performs) and after at least one token has
been delivered, `Chat` returns the Cancelled error kind — distinct by
constructor from every other kind — the channel trace still ends with the
single `close`, and the delivered tokens are an initial segment of the
tokens of the full vendor stream: no token occurring later in the stream
is ever delivered. -/
theorem chat_cancellation_stops_stream
    (eA : String → Option String) (linesA : List String) (bodyA : String) (cA : Nat)
    (eO : String → Option String) (linesO : List String) (bodyO : String) (cO : Nat)
    (hA1 : cA < (runLoop (anthropicStep eA) none linesA "" 0).2.2)
    (hA2 : 0 < (anthropicParseSSEStream eA (some cA) linesA false).1.length)
    (hO1 : cO < (runLoop (openAIStep eO) none linesO () 0).2.2)
    (hO2 : 0 < (openAIParseSSEStream eO (some cO) linesO false).1.length) :
    ((anthropicChat eA (some cA) (.httpResp 200 bodyA linesA false)).2
        = some .cancelled
      ∧ firstPartOf (anthropicParseSSEStream eA (some cA) linesA false).1
          (anthropicParseSSEStream eA none linesA false).1
      ∧ ∃ pre, (anthropicChat eA (some cA) (.httpResp 200 bodyA linesA false)).1
          = pre ++ [ChanOp.close])
    ∧ ((openAIChat eO (some cO) (.httpResp 200 bodyO linesO false)).2
        = some .cancelled
      ∧ firstPartOf (openAIParseSSEStream eO (some cO) linesO false).1
          (openAIParseSSEStream eO none linesO false).1
      ∧ ∃ pre, (openAIChat eO (some cO) (.httpResp 200 bodyO linesO false)).1
          = pre ++ [ChanOp.close]) := by
  obtain ⟨hresA, hpreA⟩ :=
    runLoop_cancel (anthropicStep eA) cA linesA "" 0 (Nat.zero_le cA) hA1
  obtain ⟨hresO, hpreO⟩ :=
    runLoop_cancel (openAIStep eO) cO linesO () 0 (Nat.zero_le cO) hO1
  have hparseA : (anthropicParseSSEStream eA (some cA) linesA false).2 = .cancelled :=
    parseFinish_cancelled _ _ _ hresA
  have hparseO : (openAIParseSSEStream eO (some cO) linesO false).2 = .cancelled :=
    parseFinish_cancelled _ _ _ hresO
  refine ⟨⟨?_, ?_, ?_⟩, ⟨?_, ?_, ?_⟩⟩
  · simp [anthropicChat, hparseA, chatResultError]
  · rw [anthropicParseSSEStream, anthropicParseSSEStream, parseFinish_fst, parseFinish_fst]
    exact hpreA
  · exact ⟨(anthropicParseSSEStream eA (some cA) linesA false).1.map ChanOp.send,
      by simp [anthropicChat]⟩
  · simp [openAIChat, hparseO, chatResultError]
  · rw [openAIParseSSEStream, openAIParseSSEStream, parseFinish_fst, parseFinish_fst]
    exact hpreO
  · exact ⟨(openAIParseSSEStream eO (some cO) linesO false).1.map ChanOp.send,
      by simp [openAIChat]⟩

/-- A concrete chunk decoder: the payload `T` decodes to the text `x`. -/
def extractW : String → Option String := fun s => if s = "T" then some "x" else none

/-- A concrete Anthropic-style stream with two content-delta events. -/
def linesAW : List String :=
  ["event: content_block_delta", "data: T", "event: content_block_delta", "data: T"]

/-- A concrete OpenAI-style stream with two data chunks. -/
def linesOW : List String := ["data: T", "data: T"]

/-- C3 witness: cancelling after the first delivered token makes both
adapters return the Cancelled kind. -/
theorem chat_cancellation_stops_stream_witness :
    (anthropicChat extractW (some 4) (.httpResp 200 "" linesAW false)).2
        = some .cancelled
    ∧ (openAIChat extractW (some 2) (.httpResp 200 "" linesOW false)).2
        = some .cancelled :=
  ⟨(chat_cancellation_stops_stream extractW linesAW "" 4 extractW linesOW "" 2
      (by decide) (by decide) (by decide) (by decide)).1.1,
   (chat_cancellation_stops_stream extractW linesAW "" 4 extractW linesOW "" 2
      (by decide) (by decide) (by decide) (by decide)).2.1⟩

/-! ## Claim C7 (reader emits exactly the non-empty events) -/

theorem readerLoop_data_ne :
    ∀ (lines : List String) (cur : SSEEvent) (e : SSEEvent),
      e ∈ readerLoop lines cur → e.data ≠ "" := by
  intro lines
  induction lines with
  | nil =>
    intro cur e he
    by_cases h : cur.data = ""
    · simp [readerLoop, h] at he
    · rw [readerLoop, if_neg h] at he
      simp at he
      subst he
      exact h
  | cons line rest ih =>
    intro cur e he
    rw [readerLoop] at he
    split at he
    · rcases List.mem_append.mp he with h1 | h1
      · by_cases h : cur.data = ""
        · simp [h] at h1
        · rw [if_neg h] at h1
          simp at h1
          subst h1
          exact h
      · exact ih _ _ h1
    · split at he
      · exact ih _ _ he
      · split at he
        · exact ih _ _ he
        · split at he
          · exact ih _ _ he
          · exact ih _ _ he

theorem readerLoop_trailing_blank :
    ∀ (lines : List String) (cur : SSEEvent),
      readerLoop (lines ++ [""]) cur = readerLoop lines cur := by
  intro lines
  induction lines with
  | nil =>
    intro cur
    simp [readerLoop]
  | cons line rest ih =>
    intro cur
    simp only [List.cons_append]
    rw [readerLoop]
    conv_rhs => rw [readerLoop]
    split
    · rw [ih]
    · split
      · rw [ih]
      · split
        · rw [ih]
        · split
          · rw [ih]
          · rw [ih]

/-- C7: every event the reader delivers carries non-empty data (blank
lines emit the pending event exactly when its accumulated data is
non-empty, discarding comment-only or malformed blocks); the output is
the same whether or not the input ends with a terminating blank line, so
end of stream without one still flushes a pending non-empty event; and a
blank line emits-iff-non-empty and resets the accumulated state. -/
theorem reader_emits_iff_nonempty_data :
    (∀ (lines : List String) (e : SSEEvent), e ∈ readerRecords lines → e.data ≠ "")
    ∧ (∀ lines : List String, readerRecords (lines ++ [""]) = readerRecords lines)
    ∧ (∀ (rest : List String) (cur : SSEEvent),
        readerLoop ("" :: rest) cur
          = (if cur.data = "" then [] else [cur]) ++ readerLoop rest ⟨"", ""⟩) := by
  refine ⟨?_, ?_, ?_⟩
  · intro lines e he
    exact readerLoop_data_ne lines ⟨"", ""⟩ e he
  · intro lines
    exact readerLoop_trailing_blank lines ⟨"", ""⟩
  · intro rest cur
    rw [readerLoop, if_pos rfl]

/-- C7 witness: the event flushed at end of input for `data: hi` has
non-empty data. -/
theorem reader_emits_iff_nonempty_data_witness :
    (SSEEvent.mk "" "hi").data ≠ "" :=
  reader_emits_iff_nonempty_data.1 ["data: hi"] ⟨"", "hi"⟩ (by decide)

/-! ## Claim C9 (reader vs inline framing) -/

theorem str_append_ne_empty (p v : String) (hp : p.data ≠ []) : ¬ p ++ v = "" := by
  intro h
  have h3 : p.data ++ v.data = [] := congrArg String.data h
  rcases List.append_eq_nil.mp h3 with ⟨h4, _⟩
  exact hp h4

theorem gsw_event_colon (t : String) : goStartsWith ("event: " ++ t) ":" = false := rfl

theorem gsw_event_event6 (t : String) : goStartsWith ("event: " ++ t) "event:" = true := rfl

theorem gsw_event_event7 (t : String) : goStartsWith ("event: " ++ t) "event: " = true := rfl

theorem gtl_event_event6 (t : String) : goTrimLead ("event: " ++ t) "event:" = " " ++ t := rfl

theorem gtl_event_event7 (t : String) : goTrimLead ("event: " ++ t) "event: " = t := rfl

theorem gts_space (t : String) : goTrimSpace (" " ++ t) = goTrimSpace t := rfl

theorem gsw_data_colon (v : String) : goStartsWith ("data: " ++ v) ":" = false := rfl

theorem gsw_data_event6 (v : String) : goStartsWith ("data: " ++ v) "event:" = false := rfl

theorem gsw_data_event7 (v : String) : goStartsWith ("data: " ++ v) "event: " = false := rfl

theorem gsw_data_data5 (v : String) : goStartsWith ("data: " ++ v) "data:" = true := rfl

theorem gsw_data_data6 (v : String) : goStartsWith ("data: " ++ v) "data: " = true := rfl

theorem gtl_data_data5 (v : String) :
    goTrimLead (goTrimLead ("data: " ++ v) "data:") " " = v := rfl

theorem gtl_data_data6 (v : String) : goTrimLead ("data: " ++ v) "data: " = v := rfl

theorem gsw_empty_colon : goStartsWith "" ":" = false := rfl

theorem gsw_empty_event6 : goStartsWith "" "event:" = false := rfl

theorem gsw_empty_event7 : goStartsWith "" "event: " = false := rfl

theorem gsw_empty_data5 : goStartsWith "" "data:" = false := rfl

theorem gsw_empty_data6 : goStartsWith "" "data: " = false := rfl

theorem readerLoop_render_some (t v : String) (rest : List String)
    (ht : goTrimSpace t = t) (hv : v ≠ "") :
    readerLoop (renderEvent (some t, v) ++ rest) ⟨"", ""⟩
      = ⟨t, v⟩ :: readerLoop rest ⟨"", ""⟩ := by
  have h1 : ¬ ("event: " ++ t) = "" := str_append_ne_empty "event: " t (by decide)
  have h2 : ¬ ("data: " ++ v) = "" := str_append_ne_empty "data: " v (by decide)
  show readerLoop (("event: " ++ t) :: ("data: " ++ v) :: "" :: rest) ⟨"", ""⟩ = _
  rw [readerLoop, if_neg h1]
  simp only [gsw_event_colon, Bool.false_eq_true, if_false, gsw_event_event6, if_true,
    gtl_event_event6, gts_space, ht]
  rw [readerLoop, if_neg h2]
  simp only [gsw_data_colon, Bool.false_eq_true, if_false, gsw_data_event6, gsw_data_data5,
    if_true, gtl_data_data5]
  rw [readerLoop, if_pos rfl]
  simp [hv]

theorem readerLoop_render_none (v : String) (rest : List String) (hv : v ≠ "") :
    readerLoop (renderEvent (none, v) ++ rest) ⟨"", ""⟩
      = ⟨"", v⟩ :: readerLoop rest ⟨"", ""⟩ := by
  have h2 : ¬ ("data: " ++ v) = "" := str_append_ne_empty "data: " v (by decide)
  show readerLoop (("data: " ++ v) :: "" :: rest) ⟨"", ""⟩ = _
  rw [readerLoop, if_neg h2]
  simp only [gsw_data_colon, Bool.false_eq_true, if_false, gsw_data_event6, gsw_data_data5,
    if_true, gtl_data_data5]
  rw [readerLoop, if_pos rfl]
  simp [hv]

theorem anthropicFraming_render_some (t v : String) (rest : List String)
    (ht : t ≠ "message_stop") :
    anthropicFraming (renderEvent (some t, v) ++ rest) ""
      = ⟨t, v⟩ :: anthropicFraming rest "" := by
  show anthropicFraming (("event: " ++ t) :: ("data: " ++ v) :: "" :: rest) "" = _
  rw [anthropicFraming]
  simp only [gsw_event_event7, if_true, gtl_event_event7]
  rw [anthropicFraming]
  simp only [gsw_data_event7, Bool.false_eq_true, if_false, gsw_data_data6, if_true,
    gtl_data_data6]
  rw [if_neg ht, anthropicFraming]
  simp only [gsw_empty_event7, gsw_empty_data6, Bool.false_eq_true, if_false, if_true]

theorem anthropicFraming_render_none (v : String) (rest : List String) :
    anthropicFraming (renderEvent (none, v) ++ rest) ""
      = ⟨"", v⟩ :: anthropicFraming rest "" := by
  show anthropicFraming (("data: " ++ v) :: "" :: rest) "" = _
  rw [anthropicFraming]
  simp only [gsw_data_event7, Bool.false_eq_true, if_false, gsw_data_data6, if_true,
    gtl_data_data6]
  rw [if_neg (by decide : ¬ ("" : String) = "message_stop"), anthropicFraming]
  simp only [gsw_empty_event7, gsw_empty_data6, Bool.false_eq_true, if_false, if_true]

/-- C9 counterexample: on a data line with zero spaces after the colon
the shared reader recognizes a record but the Anthropic inline framing
pass — which requires exactly `"data: "` — recognizes none, so the two
framings are not equivalent as claimed. -/
theorem framing_zero_space_counterexample :
    readerRecords ["data:X", ""] = [⟨"", "X"⟩]
    ∧ anthropicFraming ["data:X", ""] "" = []
    ∧ ¬ readerRecords ["data:X", ""] = anthropicFraming ["data:X", ""] "" := by
  refine ⟨rfl, rfl, by decide⟩

/-- C9 amended: the two framings agree on well-formed streams — streams
rendered from events each consisting of an optional `event:` line whose
name needs no trimming and is not the termination event, exactly one
non-empty `data:` line, both with exactly one space after the colon, and
a terminating blank line.  (The counterexample shows they differ on data
lines with zero spaces after the colon; they also differ on multi-data
events, which the reader joins and the inline pass splits.) -/
theorem framing_equiv_wellformed (evs : List (Option String × String))
    (h : ∀ p ∈ evs,
      p.2 ≠ "" ∧ goTrimSpace (p.1.getD "") = p.1.getD "" ∧ p.1 ≠ some "message_stop") :
    readerRecords (renderStream evs) = anthropicFraming (renderStream evs) "" := by
  induction evs with
  | nil => rfl
  | cons p evs ih =>
    obtain ⟨hv, ht, hstop⟩ := h p (List.mem_cons_self p evs)
    have ih' := ih fun q hq => h q (List.mem_cons_of_mem p hq)
    rcases p with ⟨_ | t, v⟩
    · rw [renderStream, readerRecords,
        readerLoop_render_none v (renderStream evs) hv,
        anthropicFraming_render_none v (renderStream evs),
        ← readerRecords, ih']
    · simp only [Option.getD] at ht
      have ht' : t ≠ "message_stop" := fun hc => hstop (by rw [hc])
      rw [renderStream, readerRecords,
        readerLoop_render_some t v (renderStream evs) ht hv,
        anthropicFraming_render_some t v (renderStream evs) ht',
        ← readerRecords, ih']

/-- C9 witness: a concrete well-formed two-event stream on which both
framings produce the same records. -/
theorem framing_equiv_wellformed_witness :
    readerRecords (renderStream [(some "content_block_delta", "x"), (none, "y")])
      = anthropicFraming (renderStream [(some "content_block_delta", "x"), (none, "y")]) "" :=
  framing_equiv_wellformed [(some "content_block_delta", "x"), (none, "y")] (by decide)
